import Mathlib

/-!
Shallow embedding of the memory-hydration / tool-approval streaming pipeline,
the upload-validation utilities, the MCP config loader and the client
localStorage layer of the repository, together with theorems settling the
spec claims about them.
-/

set_option autoImplicit false

namespace StackPath

/-! ## Message data model (src/types/message, as consumed by the sources) -/

/-- A tool call descriptor carried on an ai message. The code under
verification never inspects its fields; they are carried through untouched. -/
structure ToolCall where
  name : String
  args : String
  id : Option String
deriving DecidableEq, Repr

/-- Opaque metadata bag (additional_kwargs / response_metadata). -/
abbrev Kwargs := List (String × String)

/-- One entry of a structured content array. `obj` records whether the object
carries a functionCall property and its optional text field. -/
inductive ContentItem where
  | str (s : String)
  | obj (functionCall : Bool) (text : Option String)
deriving DecidableEq, Repr

/-- Message content: a plain string, a structured array of content items, or
some other value carried by its string rendering (the rendering stands for
both the String() coercion and the JSON serialization of that value, which
the claims never inspect). -/
inductive Content where
  | str (s : String)
  | items (l : List ContentItem)
  | other (rendered : String)
deriving DecidableEq, Repr

/-- Payload of a human / tool / error message: at minimum an id and content. -/
structure MessageData where
  id : String
  content : Content
deriving DecidableEq, Repr

/-- Payload of an ai message: id, content, optional tool-call list and
provider metadata bags (AIMessageData in src/types/message). -/
structure AIMessageData where
  id : String
  content : Content
  tool_calls : Option (List ToolCall)
  additional_kwargs : Option Kwargs
  response_metadata : Option Kwargs
deriving DecidableEq, Repr

/-- The wire message format: tagged union over human / ai / tool / error. -/
inductive MessageResponse where
  | human (data : MessageData)
  | ai (data : AIMessageData)
  | tool (data : MessageData)
  | error (data : MessageData)
deriving DecidableEq, Repr

/-- LangChain internal message representation, restricted to the fields the
code under verification reads or writes. -/
inductive BaseMessage where
  | humanMessage (content : String) (id : Option String)
  | aiMessage (content : String) (id : Option String)
      (tool_calls : Option (List ToolCall))
      (additional_kwargs : Option Kwargs) (response_metadata : Option Kwargs)
  | toolMessage (content : String) (tool_call_id : String)
deriving DecidableEq, Repr

/-! ## Memory hydration (src/lib/agent/memory.ts, shown in src as part of
s3-client.ts lines 170-277) -/

/-- Serialization of one content item, standing for its JSON.stringify image. -/
def serializeItem : ContentItem → String
  | .str s => "str:" ++ s
  | .obj functionCall text =>
    "obj:" ++ (if functionCall then "fc" else "") ++ ":" ++
      (match text with | some s => s | none => "")

/-- normalizeContent: a string passes through unchanged, anything else is
serialized (JSON.stringify in the source, abstracted here). -/
def normalizeContent : Content → String
  | .str s => s
  | .items l => "[" ++ String.intercalate "," (l.map serializeItem) ++ "]"
  | .other rendered => rendered

/-- messageResponseToBaseMessage: converts a wire message to the LangChain
representation appropriate to its role; unknown roles fall back to a human
message. -/
def messageResponseToBaseMessage (msg : MessageResponse) : BaseMessage :=
  match msg with
  | .human d => .humanMessage (normalizeContent d.content) (some d.id)
  | .ai d =>
    .aiMessage (normalizeContent d.content) (some d.id) d.tool_calls
      d.additional_kwargs d.response_metadata
  | .tool d => .toolMessage (normalizeContent d.content) d.id
  | .error d => .humanMessage (normalizeContent d.content) (some d.id)

/-- A hydration checkpoint, restricted to the fields the code writes and
reads back (versions_seen is always the empty object and is omitted). -/
structure Checkpoint where
  v : Nat
  id : String
  ts : String
  channel_values_messages : List BaseMessage
  channel_versions_messages : Nat
deriving DecidableEq, Repr

/-- The MemorySaver: a per-thread checkpoint store plus an environment flag
recording whether its put method throws (modelling the exception the
try/catch in hydrateMemoryFromHistory guards against). -/
structure MemorySaver where
  store : String → Option Checkpoint
  putFails : Bool

/-- saver.put: stores the checkpoint under the thread id, or throws when the
environment makes the write fail. -/
def MemorySaver.put (saver : MemorySaver) (threadId : String) (cp : Checkpoint) :
    Except String MemorySaver :=
  if saver.putFails then .error "put failed"
  else .ok { saver with store := fun k => if k = threadId then some cp else saver.store k }

/-- saver.get: reads the checkpoint stored under the thread id. -/
def MemorySaver.get (saver : MemorySaver) (threadId : String) : Option Checkpoint :=
  saver.store threadId

/-- hydrateMemoryFromHistory. `history` is an Option so that a missing (null)
array can be distinguished from an empty one, as the source's `!history`
guard does. `clockId`/`clockTs` stand for the ambient Date.now() /
toISOString() values. Returns the resulting saver together with the number
of saver.put calls performed; a put failure is caught so the function always
returns (the source logs and continues without history). -/
def hydrateMemoryFromHistory (saver : MemorySaver) (threadId : String)
    (history : Option (List MessageResponse)) (clockId clockTs : String) :
    MemorySaver × Nat :=
  match history with
  | none => (saver, 0)
  | some [] => (saver, 0)
  | some hs =>
    let messages := hs.map messageResponseToBaseMessage
    let checkpoint : Checkpoint :=
      { v := 1
        id := "hydrated-" ++ clockId
        ts := clockTs
        channel_values_messages := messages
        channel_versions_messages := messages.length }
    match saver.put threadId checkpoint with
    | .error _ => (saver, 1)
    | .ok saved => (saved, 1)

/-- getHistory: reads the checkpoint for the thread and returns its messages
channel, or the empty list when nothing is stored. -/
def getHistory (saver : MemorySaver) (threadId : String) : List BaseMessage :=
  match saver.get threadId with
  | none => []
  | some checkpoint => checkpoint.channel_values_messages

/-- The text of a message whose content is a plain string. -/
def textContent : Content → Option String
  | .str s => some s
  | _ => none

/-- Whether a wire message is a human/ai/tool message with plain string
content (the shape claim C1 quantifies over). -/
def stringContentRole : MessageResponse → Bool
  | .human d => (textContent d.content).isSome
  | .ai d => (textContent d.content).isSome
  | .tool d => (textContent d.content).isSome
  | .error _ => false

/-- Role-and-text correspondence between a supplied wire message and a
read-back internal message: human maps to humanMessage, ai to aiMessage,
tool to toolMessage, and the internal message's content equals the supplied
string content. -/
def roleContentMatch : MessageResponse → BaseMessage → Bool
  | .human d, .humanMessage c _ => textContent d.content == some c
  | .ai d, .aiMessage c _ _ _ _ => textContent d.content == some c
  | .tool d, .toolMessage c _ => textContent d.content == some c
  | _, _ => false

/-! ## Streaming service input selection (src/services/..., shown in src as
part of ModelConfiguration.tsx lines 64-203) -/

/-- The tool-approval decision carried by opts.allowTool. -/
inductive AllowTool where
  | allow
  | deny
deriving DecidableEq, Repr

/-- The input handed to agent.stream: either a resume Command with an action
and a data payload, or a state update carrying fresh messages. -/
inductive TurnInput where
  | resumeCommand (action : String) (data : Kwargs)
  | freshMessages (messages : List BaseMessage)
deriving DecidableEq, Repr

/-- The inputs computation of streamResponse: with allowTool present the turn
input is a resume Command whose action is continue for allow and update
otherwise, with empty data; with allowTool absent it is a single fresh
HumanMessage holding the user text. -/
def streamResponseInputs (allowTool : Option AllowTool) (userText : String) : TurnInput :=
  match allowTool with
  | some decision =>
    .resumeCommand (if decision = AllowTool.allow then "continue" else "update") []
  | none => .freshMessages [.humanMessage userText none]

/-- Modelled from the spec: the resume-action handling of the tool-approval
gate. The graph builder module (src/lib/agent/builder.ts) is not among the
provided sources; per the spec, resumption carries one of three actions —
continue proceeds to tools unmodified, update proceeds to tools with a
modified tool-call payload, feedback skips execution, records a synthetic
denial tool-result and loops back to agent. -/
inductive GateNext where
  | proceedToTools (modifiedPayload : Bool)
  | feedbackToAgent
deriving DecidableEq, Repr

/-- Modelled from the spec: which branch the suspended approval gate takes
for a given resume action (unknown actions resolve to none). -/
def gateResume (action : String) : Option GateNext :=
  if action = "continue" then some (.proceedToTools false)
  else if action = "update" then some (.proceedToTools true)
  else if action = "feedback" then some .feedbackToAgent
  else none

/-- Whether a gate outcome is the feedback branch. -/
def gateIsFeedback : Option GateNext → Bool
  | some .feedbackToAgent => true
  | _ => false

/-! ## Theorems for claims C2, C3, C4 -/

/-- C3: for every call to streamResponse, an allowTool of allow yields a
resume Command with action continue and empty data, an allowTool of deny
yields one with action update, and an absent allowTool yields a single fresh
HumanMessage carrying the user text. -/
theorem streamResponseInputs_spec (userText : String) :
    streamResponseInputs (some .allow) userText = .resumeCommand "continue" [] ∧
    streamResponseInputs (some .deny) userText = .resumeCommand "update" [] ∧
    streamResponseInputs none userText =
      .freshMessages [.humanMessage userText none] := by
  refine ⟨rfl, ?_, rfl⟩
  simp [streamResponseInputs]

/-- C2 counterexample: resuming with allowTool deny produces a resume Command
whose action is update, and the update action does not select the feedback
branch of the approval gate, so the turn does not record a denial tool-result
and return to the agent state as the claim says. -/
theorem deny_not_feedback_counterexample :
    streamResponseInputs (some .deny) "go" = .resumeCommand "update" [] ∧
    gateIsFeedback (gateResume "update") = false := by
  constructor
  · decide
  · decide

/-- C2 amended: resuming a turn with allowTool deny makes streamResponse send
a resume Command with action update and empty data, and the approval gate
resolves the update action to the proceed-to-tools branch with a modified
payload — not to the feedback branch. -/
theorem deny_resume_update (userText : String) :
    streamResponseInputs (some .deny) userText = .resumeCommand "update" [] ∧
    gateResume "update" = some (.proceedToTools true) := by
  constructor
  · simp [streamResponseInputs]
  · decide

/-- C4: for every ai history item carrying tool calls,
messageResponseToBaseMessage produces an AIMessage whose tool-call list is
the input's list untouched and whose additional_kwargs and response_metadata
are preserved. -/
theorem messageResponseToBaseMessage_ai_preserves (d : AIMessageData)
    (tcs : List ToolCall) (h : d.tool_calls = some tcs) :
    messageResponseToBaseMessage (.ai d) =
      .aiMessage (normalizeContent d.content) (some d.id) (some tcs)
        d.additional_kwargs d.response_metadata := by
  simp [messageResponseToBaseMessage, h]

/-- C4 witness: evaluating the conversion of a concrete ai message with one
tool call. -/
theorem messageResponseToBaseMessage_ai_preserves_witness :
    messageResponseToBaseMessage
      (.ai { id := "m1", content := .str "calling", tool_calls := some [⟨"search", "q", some "call1"⟩],
             additional_kwargs := some [("k", "v")], response_metadata := none }) =
      .aiMessage (normalizeContent (Content.str "calling")) (some "m1")
        (some [⟨"search", "q", some "call1"⟩]) (some [("k", "v")]) none :=
  messageResponseToBaseMessage_ai_preserves
    { id := "m1", content := .str "calling", tool_calls := some [⟨"search", "q", some "call1"⟩],
      additional_kwargs := some [("k", "v")], response_metadata := none }
    [⟨"search", "q", some "call1"⟩] rfl

/-! ## Theorems for claims C1 and C5 -/

/-- Helper: a list is Forall₂-related to its own map whenever each element is
related to its image. -/
theorem forall₂_map_self {α β : Type} {R : α → β → Prop} (f : α → β) :
    ∀ l : List α, (∀ a ∈ l, R a (f a)) → List.Forall₂ R l (l.map f)
  | [], _ => List.Forall₂.nil
  | a :: t, h =>
    List.Forall₂.cons (h a (by simp))
      (forall₂_map_self f t (fun x hx => h x (by simp [hx])))

/-- Helper: a human/ai/tool message with string content matches its own
conversion in role and text content. -/
theorem roleContentMatch_convert (m : MessageResponse)
    (h : stringContentRole m = true) :
    roleContentMatch m (messageResponseToBaseMessage m) = true := by
  cases m with
  | human d =>
    cases hc : d.content <;>
      simp_all [stringContentRole, textContent, roleContentMatch,
        messageResponseToBaseMessage, normalizeContent]
  | ai d =>
    cases hc : d.content <;>
      simp_all [stringContentRole, textContent, roleContentMatch,
        messageResponseToBaseMessage, normalizeContent]
  | tool d =>
    cases hc : d.content <;>
      simp_all [stringContentRole, textContent, roleContentMatch,
        messageResponseToBaseMessage, normalizeContent]
  | error d => simp [stringContentRole] at h

/-- C1: hydrating a non-empty history of human/ai/tool messages with string
content into a saver whose put succeeds and then reading the same saver and
thread id back with getHistory yields a sequence of the same length whose
roles (human to HumanMessage, ai to AIMessage, tool to ToolMessage) and text
content match the supplied messages in order. -/
theorem hydrate_then_getHistory_roundtrip (saver : MemorySaver)
    (threadId : String) (hs : List MessageResponse) (clockId clockTs : String)
    (hput : saver.putFails = false) (hne : hs ≠ [])
    (hstr : ∀ m ∈ hs, stringContentRole m = true) :
    List.Forall₂ (fun m b => roleContentMatch m b = true) hs
      (getHistory
        (hydrateMemoryFromHistory saver threadId (some hs) clockId clockTs).1
        threadId) ∧
    (getHistory
        (hydrateMemoryFromHistory saver threadId (some hs) clockId clockTs).1
        threadId).length = hs.length := by
  have hread :
      getHistory
        (hydrateMemoryFromHistory saver threadId (some hs) clockId clockTs).1
        threadId = hs.map messageResponseToBaseMessage := by
    cases hs with
    | nil => exact absurd rfl hne
    | cons m t =>
      simp [hydrateMemoryFromHistory, MemorySaver.put, hput, getHistory,
        MemorySaver.get]
  rw [hread]
  constructor
  · exact forall₂_map_self messageResponseToBaseMessage hs
      (fun m hm => roleContentMatch_convert m (hstr m hm))
  · simp

/-- Sample saver and history used to witness the hydration theorems. -/
def sampleSaver : MemorySaver := { store := fun _ => none, putFails := false }

/-- Sample history with one message of each role, all with string content. -/
def sampleHistory : List MessageResponse :=
  [.human { id := "h1", content := .str "hello" },
   .ai { id := "a1", content := .str "hi there", tool_calls := none,
         additional_kwargs := none, response_metadata := none },
   .tool { id := "call1", content := .str "result" }]

/-- C1 witness: the round trip evaluated on a concrete three-message history. -/
theorem hydrate_then_getHistory_roundtrip_witness :
    List.Forall₂ (fun m b => roleContentMatch m b = true) sampleHistory
      (getHistory
        (hydrateMemoryFromHistory sampleSaver "t1" (some sampleHistory) "0" "ts").1
        "t1") ∧
    (getHistory
        (hydrateMemoryFromHistory sampleSaver "t1" (some sampleHistory) "0" "ts").1
        "t1").length = sampleHistory.length :=
  hydrate_then_getHistory_roundtrip sampleSaver "t1" sampleHistory "0" "ts"
    rfl (by decide) (by decide)

/-- C5: hydrateMemoryFromHistory never propagates an error: a missing or
empty history returns the saver untouched with zero put calls; a non-empty
history performs exactly one put call; and when the saver's put throws, the
failure is caught and the function still returns normally with the store
unchanged (the agent proceeds with empty memory). Conversion itself is total
in this embedding; the modelled failure is the checkpoint write. -/
theorem hydrateMemoryFromHistory_safe (saver : MemorySaver)
    (threadId clockId clockTs : String) (hs : List MessageResponse)
    (hne : hs ≠ []) :
    hydrateMemoryFromHistory saver threadId none clockId clockTs = (saver, 0) ∧
    hydrateMemoryFromHistory saver threadId (some []) clockId clockTs = (saver, 0) ∧
    (hydrateMemoryFromHistory saver threadId (some hs) clockId clockTs).2 = 1 ∧
    hydrateMemoryFromHistory { saver with putFails := true } threadId (some hs)
        clockId clockTs = ({ saver with putFails := true }, 1) := by
  refine ⟨rfl, rfl, ?_, ?_⟩
  · cases hs with
    | nil => exact absurd rfl hne
    | cons m t =>
      cases hpf : saver.putFails <;>
        simp [hydrateMemoryFromHistory, MemorySaver.put, hpf]
  · cases hs with
    | nil => exact absurd rfl hne
    | cons m t => simp [hydrateMemoryFromHistory, MemorySaver.put]

/-- C5 witness: the error-handling contract evaluated on a concrete saver and
one-message history. -/
theorem hydrateMemoryFromHistory_safe_witness :
    hydrateMemoryFromHistory sampleSaver "t1" none "0" "ts" = (sampleSaver, 0) ∧
    hydrateMemoryFromHistory sampleSaver "t1" (some []) "0" "ts" = (sampleSaver, 0) ∧
    (hydrateMemoryFromHistory sampleSaver "t1" (some sampleHistory) "0" "ts").2 = 1 ∧
    hydrateMemoryFromHistory { sampleSaver with putFails := true } "t1"
        (some sampleHistory) "0" "ts" = ({ sampleSaver with putFails := true }, 1) :=
  hydrateMemoryFromHistory_safe sampleSaver "t1" "0" "ts" sampleHistory (by decide)

/-! ## processAIMessage (the streaming delta helper, ModelConfiguration.tsx
lines 161-203) and claim C6 -/

/-- A raw message object as seen by processAIMessage. -/
structure RawAIMessage where
  id : Option String
  content : Content
  tool_calls : Option (List ToolCall)
  additional_kwargs : Option Kwargs
  response_metadata : Option Kwargs
deriving DecidableEq, Repr

/-- JavaScript short-circuit fallback on strings: an absent or empty value
falls back to the default. -/
def jsOr (value : Option String) (fallback : String) : String :=
  match value with
  | some s => if s = "" then fallback else s
  | none => fallback

/-- Embedding of String.prototype.trim: drop whitespace characters from both
ends of the string. -/
def jsTrim (s : String) : String :=
  ⟨((s.data.dropWhile Char.isWhitespace).reverse.dropWhile Char.isWhitespace).reverse⟩

/-- The text of one content item as processAIMessage reads it: a string item
passes through, an object contributes its text field or the empty string. -/
def itemText : ContentItem → String
  | .str s => s
  | .obj _ text => match text with | some s => s | none => ""

/-- Text extraction across content shapes: a plain string passes through, an
array joins the text of its items, anything else contributes its string
rendering. -/
def extractText : Content → String
  | .str s => s
  | .items l => String.join (l.map itemText)
  | .other rendered => rendered

/-- Whether the content is an array holding an object with a functionCall
property (the pending-tool-call test of processAIMessage). -/
def hasToolCall : Content → Bool
  | .items l => l.any fun item => match item with | .obj fc _ => fc | .str _ => false
  | _ => false

/-- processAIMessage: with a pending tool call, a full ai delta preserving
tool calls and metadata; otherwise an ai delta carrying the extracted text,
suppressed when the trimmed text is empty. `now` stands for the ambient
Date.now().toString(). -/
def processAIMessage (message : RawAIMessage) (now : String) :
    Option MessageResponse :=
  if hasToolCall message.content then
    some (.ai
      { id := jsOr message.id now
        content := .str (match message.content with | .str s => s | _ => "")
        tool_calls := message.tool_calls
        additional_kwargs := message.additional_kwargs
        response_metadata := message.response_metadata })
  else
    let text := extractText message.content
    if jsTrim text = "" then none
    else
      some (.ai
        { id := jsOr message.id now, content := .str text, tool_calls := none,
          additional_kwargs := none, response_metadata := none })

/-- Concrete message whose extracted text is a single space. -/
def whitespaceAIMessage : RawAIMessage :=
  { id := some "m1", content := .str " ", tool_calls := none,
    additional_kwargs := none, response_metadata := none }

/-- C6 counterexample: an ai message without tool calls whose content is the
one-character string of a space has non-empty extracted text, yet
processAIMessage emits no delta — the claim that every non-empty extracted
text yields a delta fails here. -/
theorem whitespace_delta_suppressed :
    hasToolCall whitespaceAIMessage.content = false ∧
    (extractText whitespaceAIMessage.content).length = 1 ∧
    processAIMessage whitespaceAIMessage "0" = none := by
  refine ⟨rfl, rfl, ?_⟩
  rfl

/-- C6 amended: for every ai message whose content encodes no pending tool
call, processAIMessage extracts its text (plain string content unchanged,
text fields of a content array joined) and emits an ai delta with that text
exactly when the trimmed text is non-empty; a whitespace-only or empty
extraction yields no delta. -/
theorem processAIMessage_text (m : RawAIMessage) (now : String)
    (h : hasToolCall m.content = false) :
    processAIMessage m now =
      (if jsTrim (extractText m.content) = "" then none
       else some (.ai
        { id := jsOr m.id now, content := .str (extractText m.content),
          tool_calls := none, additional_kwargs := none,
          response_metadata := none })) := by
  simp [processAIMessage, h]

/-- C6 witness: the amended statement evaluated on a concrete message with
plain text content. -/
theorem processAIMessage_text_witness :
    processAIMessage
      { id := some "a2", content := .str "hello", tool_calls := none,
        additional_kwargs := none, response_metadata := none } "7" =
      (if jsTrim (extractText (Content.str "hello")) = "" then none
       else some (.ai
        { id := jsOr (some "a2") "7", content := .str (extractText (Content.str "hello")),
          tool_calls := none, additional_kwargs := none,
          response_metadata := none })) :=
  processAIMessage_text
    { id := some "a2", content := .str "hello", tool_calls := none,
      additional_kwargs := none, response_metadata := none } "7" rfl

/-! ## Upload validation (src/lib/storage/validation.ts) and the upload
endpoint handler, claims C7 and C10 -/

/-- An uploaded file as validateFile sees it: name, MIME type and byte size. -/
structure UFile where
  name : String
  type : String
  size : Nat
deriving DecidableEq, Repr

/-- A validation error with the offending field and a message. -/
structure ValidationError where
  field : String
  message : String
deriving DecidableEq, Repr

/-- Extensions accepted for application/octet-stream uploads. -/
def OCTET_STREAM_ALLOWED_EXTENSIONS : List String := ["md", "markdown", "txt"]

/-- Size cap for octet-stream text uploads: 2MB. -/
def MAX_OCTET_STREAM_SIZE : Nat := 2 * 1024 * 1024

/-- The MIME allow-list with the per-type size caps. -/
def allowedMimeMaxSize (mimeType : String) : Option Nat :=
  if mimeType = "image/png" then some (5 * 1024 * 1024)
  else if mimeType = "image/jpeg" then some (5 * 1024 * 1024)
  else if mimeType = "image/jpg" then some (5 * 1024 * 1024)
  else if mimeType = "application/pdf" then some (10 * 1024 * 1024)
  else if mimeType = "text/markdown" then some (2 * 1024 * 1024)
  else if mimeType = "text/plain" then some (2 * 1024 * 1024)
  else none

/-- Embedding of String.prototype.split with a one-character separator,
written over the character list so that it evaluates in the kernel. -/
def splitOnChar (sep : Char) : List Char → List (List Char)
  | [] => [[]]
  | c :: rest =>
    let r := splitOnChar sep rest
    if c = sep then [] :: r
    else
      match r with
      | [] => [[c]]
      | h :: t => (c :: h) :: t

/-- String.prototype.split at a separator character. -/
def jsSplit (sep : Char) (s : String) : List String :=
  (splitOnChar sep s.data).map (fun l => ⟨l⟩)

/-- ASCII lowercasing of one character. -/
def lowerChar (c : Char) : Char :=
  if 'A' ≤ c ∧ c ≤ 'Z' then Char.ofNat (c.toNat + 32) else c

/-- toLowerCase over the character list. -/
def jsToLower (s : String) : String :=
  ⟨s.data.map lowerChar⟩

/-- The lowercased extension of a file name: last dot-separated component. -/
def fileExtension (name : String) : String :=
  jsToLower (((jsSplit '.' name).getLast?).getD "")

/-- validateFile: octet-stream files must carry an allowed text extension and
stay within the 2MB cap; every other type must be on the allow-list and
within its cap; returns none on acceptance. -/
def validateFile (file : UFile) : Option ValidationError :=
  if file.type = "application/octet-stream" then
    let extension := fileExtension file.name
    if !(OCTET_STREAM_ALLOWED_EXTENSIONS.contains extension) then
      some { field := "type",
             message := "Files with type application/octet-stream must have extension: md, markdown, txt. Got: ." ++ extension }
    else if file.size > MAX_OCTET_STREAM_SIZE then
      some { field := "size",
             message := "File size exceeds maximum allowed size of 2MB for text files" }
    else none
  else
    match allowedMimeMaxSize file.type with
    | none =>
      some { field := "type", message := "File type " ++ file.type ++ " is not allowed" }
    | some maxSize =>
      if file.size > maxSize then
        some { field := "size", message := "File size exceeds maximum allowed size" }
      else none

/-- The maximum size validateFile accepts for a given name and MIME type,
when the combination is accepted at all. -/
def maxAllowedSize (name mimeType : String) : Option Nat :=
  if mimeType = "application/octet-stream" then
    if OCTET_STREAM_ALLOWED_EXTENSIONS.contains (fileExtension name) then
      some MAX_OCTET_STREAM_SIZE
    else none
  else allowedMimeMaxSize mimeType

/-- isValidTextContent: the source is an acknowledged placeholder that
accepts every buffer (bytes modelled as naturals). -/
def isValidTextContent (_buffer : List Nat) : Bool :=
  true

/-- Responses of the upload POST handler, restricted to the shapes the
handler can produce. -/
inductive PostResponse where
  | errNoFile
  | errValidation (field message : String)
  | errBinaryContent
  | errServer (message : String)
  | uploadSuccess (url key name mimeType : String) (size : Nat)
deriving DecidableEq, Repr

/-- The tail of the POST handler once content checks pass: build the object
key from a fresh uuid and the (non-lowercased) name extension, then answer
according to the storage upload outcome. -/
def finishUpload (file : UFile) (uuid : String) (uploadResult : Except String String) :
    PostResponse :=
  let extension :=
    match (jsSplit '.' file.name).getLast? with
    | some e => if e = "" then "bin" else e
    | none => "bin"
  let key := uuid ++ "." ++ extension
  match uploadResult with
  | .error msg => .errServer msg
  | .ok url => .uploadSuccess url key file.name file.type file.size

/-- The upload POST handler: missing file and validation failures answer 400;
an octet-stream text file whose buffer fails the text check answers the
binary-content 400; otherwise the file is uploaded. `uuid` stands for the
ambient randomUUID() and `uploadResult` for the storage call outcome. -/
def POST (file : Option UFile) (buffer : List Nat) (uuid : String)
    (uploadResult : Except String String) : PostResponse :=
  match file with
  | none => .errNoFile
  | some f =>
    match validateFile f with
    | some e => .errValidation e.field e.message
    | none =>
      if f.type = "application/octet-stream" then
        if OCTET_STREAM_ALLOWED_EXTENSIONS.contains (fileExtension f.name) then
          if !isValidTextContent buffer then .errBinaryContent
          else finishUpload f uuid uploadResult
        else finishUpload f uuid uploadResult
      else finishUpload f uuid uploadResult

/-- Whether a handler response is the binary-content rejection. -/
def isBinaryRejection : PostResponse → Bool
  | .errBinaryContent => true
  | _ => false

/-- C7: a file of exactly the maximum size allowed for its type passes
validateFile and one byte over is rejected with a size-field error, where
the maxima are 5MB for the image types, 10MB for pdf and 2MB for the text
types; in particular an application/octet-stream notes.txt of 1MB passes and
the same file at 3MB is rejected with a size error. -/
theorem validateFile_boundary (name mimeType : String) (M : Nat)
    (h : maxAllowedSize name mimeType = some M) :
    validateFile { name := name, type := mimeType, size := M } = none ∧
    (∃ e, validateFile { name := name, type := mimeType, size := M + 1 } = some e ∧
      e.field = "size") ∧
    maxAllowedSize name "image/png" = some (5 * 1024 * 1024) ∧
    maxAllowedSize name "image/jpeg" = some (5 * 1024 * 1024) ∧
    maxAllowedSize name "image/jpg" = some (5 * 1024 * 1024) ∧
    maxAllowedSize name "application/pdf" = some (10 * 1024 * 1024) ∧
    maxAllowedSize name "text/markdown" = some (2 * 1024 * 1024) ∧
    maxAllowedSize name "text/plain" = some (2 * 1024 * 1024) ∧
    validateFile { name := "notes.txt", type := "application/octet-stream",
                   size := 1024 * 1024 } = none ∧
    (∃ e, validateFile { name := "notes.txt", type := "application/octet-stream",
                         size := 3 * 1024 * 1024 } = some e ∧ e.field = "size") := by
  have hextra :
      maxAllowedSize name "image/png" = some (5 * 1024 * 1024) ∧
      maxAllowedSize name "image/jpeg" = some (5 * 1024 * 1024) ∧
      maxAllowedSize name "image/jpg" = some (5 * 1024 * 1024) ∧
      maxAllowedSize name "application/pdf" = some (10 * 1024 * 1024) ∧
      maxAllowedSize name "text/markdown" = some (2 * 1024 * 1024) ∧
      maxAllowedSize name "text/plain" = some (2 * 1024 * 1024) := by
    refine ⟨?_, ?_, ?_, ?_, ?_, ?_⟩ <;> simp [maxAllowedSize, allowedMimeMaxSize]
  have hnotes1 :
      validateFile ⟨"notes.txt", "application/octet-stream", 1024 * 1024⟩ = none := by
    decide
  have hnotes2 : ∃ e,
      validateFile ⟨"notes.txt", "application/octet-stream", 3 * 1024 * 1024⟩ =
        some e ∧ e.field = "size" :=
    ⟨⟨"size", "File size exceeds maximum allowed size of 2MB for text files"⟩,
      by decide, rfl⟩
  refine ⟨?_, ?_, hextra.1, hextra.2.1, hextra.2.2.1, hextra.2.2.2.1,
    hextra.2.2.2.2.1, hextra.2.2.2.2.2, hnotes1, hnotes2⟩
  · by_cases hoct : mimeType = "application/octet-stream"
    · subst hoct
      simp [maxAllowedSize] at h
      obtain ⟨hmem, hM⟩ := h
      subst hM
      simp [validateFile, hmem, lt_irrefl]
    · simp only [maxAllowedSize] at h
      rw [if_neg hoct] at h
      simp [validateFile, hoct, h, lt_irrefl]
  · by_cases hoct : mimeType = "application/octet-stream"
    · subst hoct
      simp [maxAllowedSize] at h
      obtain ⟨hmem, hM⟩ := h
      subst hM
      exact ⟨⟨"size", "File size exceeds maximum allowed size of 2MB for text files"⟩,
        by simp [validateFile, hmem, Nat.lt_succ_self], rfl⟩
    · simp only [maxAllowedSize] at h
      rw [if_neg hoct] at h
      exact ⟨⟨"size", "File size exceeds maximum allowed size"⟩,
        by simp [validateFile, hoct, h, Nat.lt_succ_self], rfl⟩

/-- C7 witness: the boundary facts evaluated at a concrete png upload. -/
theorem validateFile_boundary_witness :
    validateFile { name := "a.png", type := "image/png", size := 5 * 1024 * 1024 } = none ∧
    (∃ e, validateFile { name := "a.png", type := "image/png",
                         size := 5 * 1024 * 1024 + 1 } = some e ∧ e.field = "size") ∧
    maxAllowedSize "a.png" "image/png" = some (5 * 1024 * 1024) ∧
    maxAllowedSize "a.png" "image/jpeg" = some (5 * 1024 * 1024) ∧
    maxAllowedSize "a.png" "image/jpg" = some (5 * 1024 * 1024) ∧
    maxAllowedSize "a.png" "application/pdf" = some (10 * 1024 * 1024) ∧
    maxAllowedSize "a.png" "text/markdown" = some (2 * 1024 * 1024) ∧
    maxAllowedSize "a.png" "text/plain" = some (2 * 1024 * 1024) ∧
    validateFile { name := "notes.txt", type := "application/octet-stream",
                   size := 1024 * 1024 } = none ∧
    (∃ e, validateFile { name := "notes.txt", type := "application/octet-stream",
                         size := 3 * 1024 * 1024 } = some e ∧ e.field = "size") :=
  validateFile_boundary "a.png" "image/png" (5 * 1024 * 1024) (by decide)

/-- Helper: the upload tail never answers the binary-content rejection. -/
theorem isBinaryRejection_finishUpload (file : UFile) (uuid : String)
    (uploadResult : Except String String) :
    isBinaryRejection (finishUpload file uuid uploadResult) = false := by
  cases uploadResult <;> simp [finishUpload, isBinaryRejection]

/-- C10: isValidTextContent accepts every buffer, so the handler's binary
rejection response is unreachable for all inputs. -/
theorem binary_rejection_unreachable :
    (∀ buffer : List Nat, isValidTextContent buffer = true) ∧
    (∀ (file : Option UFile) (buffer : List Nat) (uuid : String)
        (uploadResult : Except String String),
      isBinaryRejection (POST file buffer uuid uploadResult) = false) := by
  constructor
  · intro buffer
    rfl
  · intro file buffer uuid uploadResult
    cases file with
    | none => rfl
    | some f =>
      simp only [POST, isValidTextContent, Bool.not_true]
      cases hv : validateFile f with
      | some e => rfl
      | none =>
        by_cases hoct : f.type = "application/octet-stream" <;>
          by_cases hext :
            OCTET_STREAM_ALLOWED_EXTENSIONS.contains (fileExtension f.name) = true <;>
          simp [hoct, hext, isBinaryRejection_finishUpload]

/-! ## MCP configuration loader (src/lib/agent/mcp.ts, shown in src as part
of s3-client.ts lines 45-169), claim C8 -/

/-- One raw arg entry of a configured server: a string or some other JSON
value (the loader keeps only the strings). -/
inductive ArgVal where
  | strArg (s : String)
  | otherArg
deriving DecidableEq, Repr

/-- A raw server entry of mcp-config.json. An absent optional field models a
falsy value in the JSON. -/
structure RawServer where
  name : String
  enabled : Bool
  type : String
  command : Option String
  args : Option (List ArgVal)
  env : Option (List (String × String))
  url : Option String
  headers : Option (List (String × String))
deriving DecidableEq, Repr

/-- The outcome of reading and parsing mcp-config.json: the file may be
absent, unreadable (read or JSON.parse throws, caught by the loader),
structurally invalid (no servers array), or parsed into a servers list. -/
inductive ConfigFile where
  | absent
  | unreadable
  | invalid
  | valid (servers : List RawServer)
deriving DecidableEq, Repr

/-- A formatted server config handed to the MCP client. -/
inductive MCPServerConfig where
  | stdio (command : String) (args : Option (List String)) (env : Option (List (String × String)))
  | http (url : String) (headers : Option (List (String × String)))
deriving DecidableEq, Repr

/-- Truthiness of an optional string field (absent and empty are falsy). -/
def optTruthy (o : Option String) : Bool :=
  match o with
  | some s => s != ""
  | none => false

/-- Insertion into a JavaScript-object-like record: replaces the value of an
existing key in place, otherwise appends the pair. -/
def recordInsert (r : List (String × MCPServerConfig)) (k : String)
    (v : MCPServerConfig) : List (String × MCPServerConfig) :=
  if r.any (fun p => p.1 == k) then
    r.map (fun p => if p.1 == k then (k, v) else p)
  else r ++ [(k, v)]

/-- The strings of an args array (non-string entries are filtered out). -/
def filterStrings (l : List ArgVal) : List String :=
  l.filterMap (fun a => match a with | .strArg s => some s | .otherArg => none)

/-- The per-server step of the loader loop: disabled servers are skipped, a
stdio server with a truthy command or an http server with a truthy url is
formatted and inserted, anything else is skipped. -/
def processServer (configs : List (String × MCPServerConfig)) (server : RawServer) :
    List (String × MCPServerConfig) :=
  if !server.enabled then configs
  else if server.type == "stdio" && optTruthy server.command then
    recordInsert configs server.name
      (.stdio (server.command.getD "") (server.args.map filterStrings) server.env)
  else if server.type == "http" && optTruthy server.url then
    recordInsert configs server.name (.http (server.url.getD "") server.headers)
  else configs

/-- getMCPServerConfigs: an absent, unreadable or invalid config file yields
the empty record (the loader logs and returns); otherwise the servers list
is folded through processServer. -/
def getMCPServerConfigs (file : ConfigFile) : List (String × MCPServerConfig) :=
  match file with
  | .absent => []
  | .unreadable => []
  | .invalid => []
  | .valid servers => servers.foldl processServer []

/-- The MCP client, holding the formatted server configs it was built from. -/
structure MultiServerMCPClient where
  mcpServers : List (String × MCPServerConfig)
deriving DecidableEq, Repr

/-- createMCPClient: null when no server config was loaded, otherwise a
client over the loaded configs. -/
def createMCPClient (file : ConfigFile) : Option MultiServerMCPClient :=
  let mcpServers := getMCPServerConfigs file
  if mcpServers.isEmpty then none else some ⟨mcpServers⟩

/-- getMCPTools: no client means zero tools; otherwise the client's tools
(an oracle parameter, since they come from external server processes). -/
def getMCPTools (file : ConfigFile) (toolsOf : MultiServerMCPClient → List String) :
    List String :=
  match createMCPClient file with
  | none => []
  | some client => toolsOf client

/-- Helper: an entry of a record after insertion was already present or is
the inserted pair. -/
theorem mem_recordInsert (r : List (String × MCPServerConfig)) (k : String)
    (v : MCPServerConfig) (p : String × MCPServerConfig)
    (hp : p ∈ recordInsert r k v) : p ∈ r ∨ p = (k, v) := by
  unfold recordInsert at hp
  by_cases hk : r.any (fun q => q.1 == k) = true
  · rw [if_pos hk] at hp
    obtain ⟨q, hq, hqe⟩ := List.mem_map.mp hp
    by_cases hq1 : q.1 == k
    · right
      rw [if_pos hq1] at hqe
      exact hqe.symm
    · left
      rw [if_neg hq1] at hqe
      exact hqe ▸ hq
  · rw [if_neg hk] at hp
    rcases List.mem_append.mp hp with hl | hr
    · exact Or.inl hl
    · exact Or.inr (List.mem_singleton.mp hr)

/-- Helper: an entry produced by one loader step was already present or comes
from that server, which is then enabled and gives the entry its name. -/
theorem mem_processServer (configs : List (String × MCPServerConfig))
    (server : RawServer) (p : String × MCPServerConfig)
    (hp : p ∈ processServer configs server) :
    p ∈ configs ∨ (server.enabled = true ∧ p.1 = server.name) := by
  unfold processServer at hp
  by_cases hen : server.enabled = true
  · rw [hen] at hp
    simp only [Bool.not_true, Bool.false_eq_true, if_false] at hp
    by_cases h1 : (server.type == "stdio" && optTruthy server.command) = true
    · rw [if_pos h1] at hp
      rcases mem_recordInsert _ _ _ _ hp with hin | heq
      · exact Or.inl hin
      · exact Or.inr ⟨hen, by rw [heq]⟩
    · rw [if_neg h1] at hp
      by_cases h2 : (server.type == "http" && optTruthy server.url) = true
      · rw [if_pos h2] at hp
        rcases mem_recordInsert _ _ _ _ hp with hin | heq
        · exact Or.inl hin
        · exact Or.inr ⟨hen, by rw [heq]⟩
      · rw [if_neg h2] at hp
        exact Or.inl hp
  · have hen' : server.enabled = false := Bool.eq_false_iff.mpr hen
    rw [hen'] at hp
    simp only [Bool.not_false, if_true] at hp
    exact Or.inl hp

/-- Helper: every entry of the folded loader loop already sat in the initial
record or originates from an enabled server of the list bearing its name. -/
theorem mem_foldl_processServer (servers : List RawServer) :
    ∀ (init : List (String × MCPServerConfig)) (p : String × MCPServerConfig),
      p ∈ servers.foldl processServer init →
      p ∈ init ∨ ∃ s, s ∈ servers ∧ s.enabled = true ∧ p.1 = s.name := by
  induction servers with
  | nil => intro init p hp; exact Or.inl hp
  | cons s t ih =>
    intro init p hp
    rcases ih (processServer init s) p hp with hin | ⟨s', hs', hen, hname⟩
    · rcases mem_processServer init s p hin with hin' | ⟨hen, hname⟩
      · exact Or.inl hin'
      · exact Or.inr ⟨s, List.mem_cons_self s t, hen, hname⟩
    · exact Or.inr ⟨s', List.mem_cons_of_mem s hs', hen, hname⟩

/-- C8: every entry of getMCPServerConfigs originates from an enabled server
(so servers with enabled false are excluded), an absent, unreadable or
structurally invalid configuration file yields the empty config without
throwing, and in those cases getMCPTools yields zero tools for every tool
oracle. -/
theorem getMCPServerConfigs_spec :
    getMCPServerConfigs .absent = [] ∧
    getMCPServerConfigs .unreadable = [] ∧
    getMCPServerConfigs .invalid = [] ∧
    (∀ (servers : List RawServer) (p : String × MCPServerConfig),
      p ∈ getMCPServerConfigs (.valid servers) →
      ∃ s, s ∈ servers ∧ s.enabled = true ∧ p.1 = s.name) ∧
    (∀ toolsOf : MultiServerMCPClient → List String,
      getMCPTools .absent toolsOf = [] ∧
      getMCPTools .unreadable toolsOf = [] ∧
      getMCPTools .invalid toolsOf = []) := by
  refine ⟨rfl, rfl, rfl, ?_, ?_⟩
  · intro servers p hp
    rcases mem_foldl_processServer servers [] p hp with hin | hout
    · exact absurd hin (List.not_mem_nil p)
    · exact hout
  · intro toolsOf
    exact ⟨rfl, rfl, rfl⟩

/-- Sample config with one disabled stdio server and one enabled http server. -/
def sampleServers : List RawServer :=
  [{ name := "files", enabled := false, type := "stdio", command := some "npx",
     args := none, env := none, url := none, headers := none },
   { name := "context7", enabled := true, type := "http", command := none,
     args := none, env := none, url := some "https://mcp.context7.ai",
     headers := none }]

/-- C8 witness: the membership implication evaluated on the sample config,
whose loaded record holds exactly the enabled http server. -/
theorem getMCPServerConfigs_spec_witness :
    ∃ s, s ∈ sampleServers ∧ s.enabled = true ∧
      ("context7", MCPServerConfig.http "https://mcp.context7.ai" none).1 = s.name :=
  getMCPServerConfigs_spec.2.2.2.1 sampleServers
    ("context7", .http "https://mcp.context7.ai" none) (by decide)

/-! ## Client localStorage layer (src/lib/storage/localStorage.ts), claim C9 -/

/-- A client thread record. -/
structure Thread where
  id : String
  title : String
  createdAt : String
  updatedAt : String
deriving DecidableEq, Repr

/-- The browser localStorage as the code sees it: whether a window object
exists, and the stored string per key. -/
structure LocalStorage where
  hasWindow : Bool
  items : String → Option String

/-- Storage key of the thread list. -/
def THREADS_KEY : String := "stackpath_threads"

/-- Key stem of the per-thread message lists. -/
def MESSAGES_KEY_STEM : String := "stackpath_messages_"

/-- getThreads: outside a browser or with no stored value the empty list;
otherwise the parsed value, with a parse failure caught and degraded to the
empty list. The JSON parser is an oracle parameter. -/
def getThreads (store : LocalStorage) (parseThreads : String → Option (List Thread)) :
    List Thread :=
  if !store.hasWindow then []
  else
    match store.items THREADS_KEY with
    | none => []
    | some data =>
      if data = "" then []
      else
        match parseThreads data with
        | some threads => threads
        | none => []

/-- getMessages: same degradation contract for the per-thread message list,
keyed by the message key stem followed by the thread id. -/
def getMessages (store : LocalStorage)
    (parseMessages : String → Option (List MessageResponse)) (threadId : String) :
    List MessageResponse :=
  if !store.hasWindow then []
  else
    match store.items (MESSAGES_KEY_STEM ++ threadId) with
    | none => []
    | some data =>
      if data = "" then []
      else
        match parseMessages data with
        | some messages => messages
        | none => []

/-- C9: a missing or unparseable stored value degrades to the empty value:
with the thread record absent getThreads returns the empty list, with it
present but failing to parse getThreads also returns the empty list, and
getMessages behaves the same for every thread id. -/
theorem storage_degrades_to_empty (storeA storeC : LocalStorage)
    (parseT : String → Option (List Thread))
    (parseM : String → Option (List MessageResponse)) (threadId sT sM : String)
    (hA1 : storeA.items THREADS_KEY = none)
    (hA2 : storeA.items (MESSAGES_KEY_STEM ++ threadId) = none)
    (hC1 : storeC.items THREADS_KEY = some sT) (hpT : parseT sT = none)
    (hC2 : storeC.items (MESSAGES_KEY_STEM ++ threadId) = some sM)
    (hpM : parseM sM = none) :
    getThreads storeA parseT = [] ∧
    getMessages storeA parseM threadId = [] ∧
    getThreads storeC parseT = [] ∧
    getMessages storeC parseM threadId = [] := by
  refine ⟨?_, ?_, ?_, ?_⟩
  · unfold getThreads
    rw [hA1]
    cases storeA.hasWindow <;> rfl
  · unfold getMessages
    rw [hA2]
    cases storeA.hasWindow <;> rfl
  · unfold getThreads
    rw [hC1]
    cases storeC.hasWindow <;> [rfl; skip]
    by_cases hempty : sT = ""
    · simp [hempty]
    · simp [hempty, hpT]
  · unfold getMessages
    rw [hC2]
    cases storeC.hasWindow <;> [rfl; skip]
    by_cases hempty : sM = ""
    · simp [hempty]
    · simp [hempty, hpM]

/-- Failing parser used by the C9 witness. -/
def failingThreadParse : String → Option (List Thread) := fun _ => none

/-- Failing parser used by the C9 witness. -/
def failingMessageParse : String → Option (List MessageResponse) := fun _ => none

/-- Store with no records, used by the C9 witness. -/
def emptyStore : LocalStorage := { hasWindow := true, items := fun _ => none }

/-- Store whose every record holds a corrupt value, used by the C9 witness. -/
def corruptStore : LocalStorage := { hasWindow := true, items := fun _ => some "garbage" }

/-- C9 witness: the degradation contract evaluated on a concrete empty store
and a concrete corrupt store. -/
theorem storage_degrades_to_empty_witness :
    getThreads emptyStore failingThreadParse = [] ∧
    getMessages emptyStore failingMessageParse "T1" = [] ∧
    getThreads corruptStore failingThreadParse = [] ∧
    getMessages corruptStore failingMessageParse "T1" = [] :=
  storage_degrades_to_empty emptyStore corruptStore failingThreadParse
    failingMessageParse "T1" "garbage" "garbage" rfl rfl rfl rfl rfl rfl

end StackPath
